import Mathlib

/-!
# Linkwatch: verification of the registry, canonicalizer, prober and startup code

Shallow embedding of the linkwatch service (Go) into Lean 4.

Conventions used throughout:
* Go strings are modelled by `String`; the inputs of interest are ASCII, where
  Go's byte indexing and Lean's character indexing coincide.
* Fallible Go functions returning `(T, error)` are modelled by `Option`;
  a Go runtime panic (index out of range) is also modelled by `none` where noted.
* `nil` pointers (`*int`, `*string`) are modelled by `Option`.
-/

namespace Linkwatch

/-! ## String helpers mirroring the Go standard library `strings` package -/

/-- `strings.ToLower` (ASCII view; the repository only lowercases schemes and hosts). -/
def lowerStr (s : String) : String := String.mk (s.data.map Char.toLower)

/-- `strings.HasSuffix s suf`. -/
def strEndsWith (s suf : String) : Bool := suf.data.isSuffixOf s.data

/-- `strings.TrimSuffix s suf`: removes one occurrence of the suffix, if present. -/
def strTrimSuffix (s suf : String) : String :=
  if strEndsWith s suf then String.mk (s.data.take (s.data.length - suf.data.length)) else s

/-- Occurrence of `pat` as a contiguous substring of `l` (the semantics of a SQL
`LIKE` pattern of the shape percent-pat-percent). -/
def hasSublist (pat : List Char) : List Char → Bool
  | [] => pat.isEmpty
  | c :: rest => pat.isPrefixOf (c :: rest) || hasSublist pat rest

/-- String-level substring test, used to model `canonical_url LIKE ?` with a
pattern enclosed in percent signs. -/
def strContains (s pat : String) : Bool := hasSublist pat.data s.data

/-- `strings.Split` on a one-character separator, at the character-list level:
`acc` accumulates the current field in reverse. -/
def splitOnCharAux (sep : Char) : List Char → List Char → List (List Char)
  | [], acc => [acc.reverse]
  | c :: rest, acc =>
    if c = sep then acc.reverse :: splitOnCharAux sep rest []
    else splitOnCharAux sep rest (c :: acc)

/-- `strings.Split s (String.singleton sep)`. -/
def strSplitOn (s : String) (sep : Char) : List String :=
  (splitOnCharAux sep s.data []).map String.mk

/-- Cut a character list at the first occurrence of `sep`: returns the part
before it and, when `sep` occurs, the part after it. -/
def cutList (sep : Char) : List Char → List Char × Option (List Char)
  | [] => ([], none)
  | c :: rest =>
    if c = sep then ([], some rest)
    else
      let r := cutList sep rest
      (c :: r.1, r.2)

/-- Split a character list at the first occurrence of `sep`, keeping `sep` in
the second part (used to cut the authority from the path, which keeps its
leading slash). -/
def spanUntil (sep : Char) : List Char → List Char × List Char
  | [] => ([], [])
  | c :: rest =>
    if c = sep then ([], c :: rest)
    else
      let r := spanUntil sep rest
      (c :: r.1, r.2)

/-! ## `net/url`: the URL record, parsing and serialization

`url.URL` restricted to the fields the repository uses: scheme, host
(including an optional port), path, raw query and fragment.  Userinfo, opaque
URLs and percent-escaping do not occur in the repository's flows and are left
out; `goParse` returns `none` for an opaque (non `://`) URL with a scheme. -/

structure GoURL where
  scheme : String
  host : String
  path : String
  rawQuery : String
  fragment : String
  deriving DecidableEq, Repr

/-- `url.Parse` for the grammar `scheme://host/path?query#fragment` (fragment
cut first, then query, then scheme, then authority until the first slash).
Like Go's `Parse`, the scheme is lowercased; the host is left as written.
A string without a colon parses as a scheme-less URL whose path is the whole
string, as in Go. -/
def goParse (raw : String) : Option GoURL :=
  let fragCut := cutList (Char.ofNat 35) raw.data
  let fragment := match fragCut.2 with
    | none => ""
    | some l => String.mk l
  let queryCut := cutList (Char.ofNat 63) fragCut.1
  let rawQuery := match queryCut.2 with
    | none => ""
    | some l => String.mk l
  let schemeCut := cutList (Char.ofNat 58) queryCut.1
  match schemeCut.2 with
  | none =>
    some { scheme := "", host := "", path := String.mk queryCut.1,
           rawQuery := rawQuery, fragment := fragment }
  | some rest =>
    match rest with
    | '/' :: '/' :: afterSlashes =>
      let authCut := spanUntil '/' afterSlashes
      some { scheme := lowerStr (String.mk schemeCut.1), host := String.mk authCut.1,
             path := String.mk authCut.2, rawQuery := rawQuery, fragment := fragment }
    | _ => none

/-- `url.URL.String` for the modelled fields (no userinfo, no opaque part,
no escaping needed on the repository's inputs). -/
def urlToString (u : GoURL) : String :=
  (if u.scheme ≠ "" then u.scheme ++ ":" else "") ++
  (if u.scheme ≠ "" ∨ u.host ≠ "" then
     (if u.host ≠ "" ∨ u.path ≠ "" then "//" else "") ++ u.host
   else "") ++
  (if u.path ≠ "" ∧ u.path.data.head? ≠ some '/' ∧ u.host ≠ "" then "/" else "") ++
  u.path ++
  (if u.rawQuery ≠ "" then "?" ++ u.rawQuery else "") ++
  (if u.fragment ≠ "" then "#" ++ u.fragment else "")

/-! ## `storage.CanonicalizeURL` -/

/-- The mutation `CanonicalizeURL` performs on the parsed URL: lowercase scheme
and host, trim a default-port suffix, clear the fragment, trim one trailing
slash from a non-root path. -/
def canonicalizeParsed (u : GoURL) : GoURL :=
  let scheme := lowerStr u.scheme
  let host0 := lowerStr u.host
  let host :=
    if scheme = "http" then
      if strEndsWith host0 ":80" then strTrimSuffix host0 ":80" else host0
    else if scheme = "https" then
      if strEndsWith host0 ":443" then strTrimSuffix host0 ":443" else host0
    else host0
  let path :=
    if u.path ≠ "/" ∧ strEndsWith u.path "/" then strTrimSuffix u.path "/" else u.path
  { scheme := scheme, host := host, path := path, rawQuery := u.rawQuery, fragment := "" }

/-- `storage.CanonicalizeURL`: parse, reject a missing scheme, canonicalize,
re-serialize.  `none` models the error return. -/
def CanonicalizeURL (rawURL : String) : Option String :=
  match goParse rawURL with
  | none => none
  | some parsed =>
    if parsed.scheme = "" then none
    else some (urlToString (canonicalizeParsed parsed))

/-! ## `storage`: targets table, `ListTargets`, `CreateTarget`, `generateID`

The SQLite table is modelled as a list of rows.  `created_at` is modelled by
its stored text form (the repository compares it both inside SQL and against
the text cursor from the page token); SQL comparison on these text timestamps
is lexicographic string comparison. -/

structure StoredTarget where
  id : String
  url : String
  canonicalUrl : String
  createdAt : String
  deriving DecidableEq, Repr

/-- `models.TargetList`; an empty `nextPageToken` plays the role of Go's
zero-value string (omitted in JSON). -/
structure TargetList where
  items : List StoredTarget
  nextPageToken : String
  deriving DecidableEq, Repr

/-- `generateID`: the prefix followed by the decimal wall-clock nanoseconds. -/
def generateID (pre : String) (nanos : Nat) : String := pre ++ toString nanos

/-- Lexicographic order on character lists: the comparison the SQL engine
applies to the stored text values. -/
def listLexLT : List Char → List Char → Bool
  | [], [] => false
  | [], _ :: _ => true
  | _ :: _, [] => false
  | a :: as, b :: bs => if a < b then true else if b < a then false else listLexLT as bs

/-- String comparison as performed by the SQL engine on text columns. -/
def strLT (a b : String) : Bool := listLexLT a.data b.data

/-- The `ORDER BY created_at, id` relation. -/
def rowLE (a b : StoredTarget) : Bool :=
  strLT a.createdAt b.createdAt ||
    (a.createdAt = b.createdAt && (strLT a.id b.id || a.id = b.id))

def insertRow (t : StoredTarget) : List StoredTarget → List StoredTarget
  | [] => [t]
  | x :: xs => if rowLE t x then t :: x :: xs else x :: insertRow t xs

/-- The SQL engine returns rows sorted by `(created_at, id)` regardless of the
table's physical order. -/
def sortRows (l : List StoredTarget) : List StoredTarget := l.foldr insertRow []

/-- The `LIKE` pattern `ListTargets` builds for a host filter (sans the
enclosing percent wildcards, which `strContains` supplies). -/
def likePatternForHost (host : String) : String := "://" ++ lowerStr host ++ "/"

/-- `Storage.ListTargets`.  The three stages mirror the SQL the Go code builds:
the optional `LIKE` host clause, the cursor clause — applied only when the page
token splits on an underscore into exactly two parts — and
`ORDER BY created_at, id LIMIT limit+1`, followed by the overfill check that
emits the next page token from the last returned row.  `none` models the
out-of-range panic Go would hit indexing `targets[limit-1]` with `limit = 0`. -/
def listTargets (table : List StoredTarget) (host : Option String) (limit : Nat)
    (pageToken : String) : Option TargetList :=
  let afterHost := match host with
    | some h => table.filter (fun t => strContains t.canonicalUrl (likePatternForHost h))
    | none => table
  let afterCursor :=
    if pageToken ≠ "" then
      match strSplitOn pageToken '_' with
      | [ts, tid] => afterHost.filter (fun t =>
          strLT ts t.createdAt || (t.createdAt = ts && strLT tid t.id))
      | _ => afterHost
    else afterHost
  let fetched := (sortRows afterCursor).take (limit + 1)
  if limit < fetched.length then
    match (fetched.take limit).getLast? with
    | some last =>
      some { items := fetched.take limit,
             nextPageToken := last.createdAt ++ "_" ++ last.id }
    | none => none
  else
    some { items := fetched, nextPageToken := "" }

/-- The idempotency-key table rows, as (key, target_id) pairs, plus the targets
table: the store state `CreateTarget` reads and writes in one transaction. -/
structure StoreState where
  targets : List StoredTarget
  idemKeys : List (String × String)
  deriving DecidableEq, Repr

/-- `SELECT ... FROM targets WHERE canonical_url = ?`. -/
def findByCanonical (s : StoreState) (canon : String) : Option StoredTarget :=
  s.targets.find? (fun t => t.canonicalUrl = canon)

/-- `SELECT ... FROM targets WHERE id = ?`. -/
def findById (s : StoreState) (tid : String) : Option StoredTarget :=
  s.targets.find? (fun t => t.id = tid)

/-- `SELECT target_id FROM idempotency_keys WHERE key = ?`. -/
def lookupKey (s : StoreState) (k : String) : Option String :=
  (s.idemKeys.find? (fun p => p.1 = k)).map Prod.snd

/-- `INSERT OR IGNORE INTO idempotency_keys`. -/
def insertKeyIgnore (s : StoreState) (k tid : String) : StoreState :=
  if (lookupKey s k).isSome then s
  else { s with idemKeys := s.idemKeys ++ [(k, tid)] }

/-- `Storage.CreateTarget`.  `newId` stands for the eagerly generated
`generateID "t_"` value and `now` for `time.Now().UTC()`, both inputs of the
transaction.  Returns `(returned target, is_new, state after commit)`; `none`
models the error return (e.g. the key points at a missing target row). -/
def createTarget (s : StoreState) (newId now originalURL canonicalURL : String)
    (idemKey : Option String) : Option (StoredTarget × Bool × StoreState) :=
  match findByCanonical s canonicalURL with
  | some existing =>
    let s1 := match idemKey with
      | some k => insertKeyIgnore s k existing.id
      | none => s
    some (existing, false, s1)
  | none =>
    let keyHit : Option (Option StoredTarget) :=
      match idemKey with
      | some k =>
        match lookupKey s k with
        | some tid => some (findById s tid)
        | none => none
      | none => none
    match keyHit with
    | some (some t) => some (t, false, s)
    | some none => none
    | none =>
      let newTarget : StoredTarget :=
        { id := newId, url := originalURL, canonicalUrl := canonicalURL, createdAt := now }
      let committed : StoreState :=
        { targets := s.targets ++ [newTarget],
          idemKeys := match idemKey with
            | some k => s.idemKeys ++ [(k, newId)]
            | none => s.idemKeys }
      some (newTarget, true, committed)

/-! ## `main.initDB` -/

/-- Go string slicing `s[:n]`: `none` models the index-out-of-range panic when
`n` exceeds the length (characters here, bytes in Go; identical on ASCII). -/
def goSlice (s : String) (n : Nat) : Option String :=
  if n ≤ s.length then some (String.mk (s.data.take n)) else none

/-- `main.initDB`, reduced to its driver/DSN selection.  `none` models a slice
panic; otherwise `some (driver, dsn)` is what reaches `sql.Open`. -/
def initDB (databaseURL : String) : Option (String × String) :=
  let url := if databaseURL = "" then "sqlite3://linkwatch.db" else databaseURL
  match goSlice url 9 with
  | none => none
  | some p9 =>
    if p9 = "sqlite3://" then some ("sqlite3", String.mk (url.data.drop 9))
    else
      match goSlice url 11 with
      | none => none
      | some p11 =>
        if p11 = "postgres://" then some ("postgres", url)
        else
          match goSlice url 13 with
          | none => none
          | some p13 =>
            if p13 = "postgresql://" then some ("postgres", url)
            else some ("sqlite3", url)

/-! ## `checker`: the probe loop, the per-target worker, the redirect policy

The probe's interaction with the outside world is an event trace:
what each started attempt observes (`AttemptEvent`) and whether the
cancellation signal fires during the backoff sleep that precedes attempt `n`
(`cancelBefore = some n`).  Events:

* `constructErr`: `http.NewRequestWithContext` fails (the code does `continue`);
* `netErr`: `client.Do` fails and `isNetworkError` is true (`continue`);
* `otherErr`: `client.Do` fails and `isNetworkError` is false — this includes
  context cancellation surfacing through the HTTP client (`break`);
* `response code`: an HTTP response with that status code. -/

inductive AttemptEvent where
  | constructErr (msg : String)
  | netErr (msg : String)
  | otherErr (msg : String)
  | response (code : Nat)
  deriving DecidableEq, Repr

/-- `models.CheckResult` restricted to the probe-filled fields (`checked_at`
and `latency_ms` are stamped by the caller from the wall clock). -/
structure CheckResult where
  statusCode : Option Nat
  error : Option String
  deriving DecidableEq, Repr

/-- The `for attempt := 0; attempt < maxAttempts; attempt++` loop of
`performCheck`.  `remaining` is `maxAttempts - attempt`; `lastErr` and
`statusCode` are the loop-carried `lastErr` and `result.StatusCode`; `made`
counts attempts started (for the retry-policy claims).  Falling off the loop
stores `lastErr`, if any, into `result.Error`. -/
def performCheckLoop (events : Nat → AttemptEvent) (cancelBefore : Option Nat) :
    Nat → Nat → Option String → Option Nat → Nat → CheckResult × Nat
  | 0, _, lastErr, statusCode, made => (⟨statusCode, lastErr⟩, made)
  | remaining + 1, attempt, _lastErr, statusCode, made =>
    if 0 < attempt ∧ cancelBefore = some attempt then
      (⟨statusCode, some "context cancelled"⟩, made)
    else
      match events attempt with
      | .constructErr m =>
        performCheckLoop events cancelBefore remaining (attempt + 1) (some m) statusCode (made + 1)
      | .netErr m =>
        performCheckLoop events cancelBefore remaining (attempt + 1) (some m) statusCode (made + 1)
      | .otherErr m => (⟨statusCode, some m⟩, made + 1)
      | .response code =>
        if code < 500 then (⟨some code, none⟩, made + 1)
        else
          let m := "server error: " ++ toString code
          if remaining = 0 then (⟨some code, some m⟩, made + 1)
          else performCheckLoop events cancelBefore remaining (attempt + 1) (some m) (some code) (made + 1)

/-- `Checker.performCheck` (`maxAttempts = 3`): the final `CheckResult`
together with the number of attempts started. -/
def performCheck (events : Nat → AttemptEvent) (cancelBefore : Option Nat) :
    CheckResult × Nat :=
  performCheckLoop events cancelBefore 3 0 none none 0

/-- `Checker.checkTarget`, as the `CheckResult` it hands to
`SaveCheckResult` — `none` when nothing is written: an unparseable target URL,
or the cancellation signal observed while waiting for the per-host gate.
(Cancellation while waiting for the global gate, in `checkAllTargets`, likewise
prevents the probe from starting at all.) -/
def checkTarget (targetURL : String) (cancelAtHostGate : Bool)
    (events : Nat → AttemptEvent) (cancelBefore : Option Nat) : Option CheckResult :=
  match goParse targetURL with
  | none => none
  | some _ =>
    if cancelAtHostGate then none
    else some (performCheck events cancelBefore).1

/-- The `CheckRedirect` closure installed in `checker.New`: `true` means the
redirect is rejected (`len(via) >= 5`), where `via` is the number of requests
already issued (the initial request plus the redirects followed so far). -/
def checkRedirect (via : Nat) : Bool := decide (5 ≤ via)

/-- The `net/http` client redirect loop: given a chain of `chain` consecutive
redirect responses before a final non-redirect, follow redirects while
`CheckRedirect` permits them.  `via` counts requests already issued.
`.ok k` means the chain was exhausted after following `k` redirects;
`.error` is the redirect error that fails the attempt. -/
def clientFollowRedirects : Nat → Nat → Except String Nat
  | 0, _ => .ok 0
  | chain + 1, via =>
    if checkRedirect via then .error "stopped after 5 redirects"
    else
      match clientFollowRedirects chain (via + 1) with
      | .ok k => .ok (k + 1)
      | .error e => .error e

/-- One `client.Do` against a chain of `chain` redirects: the initial request
has already been issued, so the check for the first redirect sees one request. -/
def clientDo (chain : Nat) : Except String Nat := clientFollowRedirects chain 1

/-! ## Supporting lemmas -/

theorem strTrimSuffix_append (s suf : String) (h : strEndsWith s suf = true) :
    strTrimSuffix s suf ++ suf = s := by
  obtain ⟨t, ht⟩ := List.isSuffixOf_iff_suffix.mp h
  apply String.ext
  have hdata : (strTrimSuffix s suf).data = s.data.take (s.data.length - suf.data.length) := by
    simp [strTrimSuffix, h]
  show (strTrimSuffix s suf).data ++ suf.data = s.data
  rw [hdata, ← ht, List.length_append, Nat.add_sub_cancel, List.take_left]

theorem canonicalizeParsed_path (u : GoURL) :
    (canonicalizeParsed u).path =
      if u.path ≠ "/" ∧ strEndsWith u.path "/" then strTrimSuffix u.path "/" else u.path := rfl

theorem canonicalizeParsed_host (u : GoURL) :
    (canonicalizeParsed u).host =
      if lowerStr u.scheme = "http" then
        if strEndsWith (lowerStr u.host) ":80" then strTrimSuffix (lowerStr u.host) ":80"
        else lowerStr u.host
      else if lowerStr u.scheme = "https" then
        if strEndsWith (lowerStr u.host) ":443" then strTrimSuffix (lowerStr u.host) ":443"
        else lowerStr u.host
      else lowerStr u.host := rfl

/-! ## Claims -/

/-- **C5** — Canonicalization rules: for every parsed URL, `CanonicalizeURL`
lowercases the scheme and host, drops port 80 for http and 443 for https,
drops the fragment, preserves the query verbatim, leaves an empty or root
path as-is and otherwise strips a single trailing slash; and the three inputs
`https://Example.Com/path/`, `HTTPS://example.com/path` and
`https://example.com:443/path` all canonicalize to the same string. -/
theorem C5_canonicalization :
    (∀ u : GoURL,
      (canonicalizeParsed u).scheme = lowerStr u.scheme ∧
      (canonicalizeParsed u).fragment = "" ∧
      (canonicalizeParsed u).rawQuery = u.rawQuery ∧
      ((u.path = "" ∨ u.path = "/") → (canonicalizeParsed u).path = u.path) ∧
      (strEndsWith u.path "/" = false → (canonicalizeParsed u).path = u.path) ∧
      (u.path ≠ "/" → strEndsWith u.path "/" = true →
        (canonicalizeParsed u).path ++ "/" = u.path) ∧
      (lowerStr u.scheme = "http" → strEndsWith (lowerStr u.host) ":80" = true →
        (canonicalizeParsed u).host ++ ":80" = lowerStr u.host) ∧
      (lowerStr u.scheme = "https" → strEndsWith (lowerStr u.host) ":443" = true →
        (canonicalizeParsed u).host ++ ":443" = lowerStr u.host) ∧
      ((lowerStr u.scheme = "http" → strEndsWith (lowerStr u.host) ":80" = false) →
       (lowerStr u.scheme = "https" → strEndsWith (lowerStr u.host) ":443" = false) →
        (canonicalizeParsed u).host = lowerStr u.host)) ∧
    CanonicalizeURL "https://Example.Com/path/" = some "https://example.com/path" ∧
    CanonicalizeURL "HTTPS://example.com/path" = some "https://example.com/path" ∧
    CanonicalizeURL "https://example.com:443/path" = some "https://example.com/path" := by
  refine ⟨fun u => ⟨rfl, rfl, rfl, ?_, ?_, ?_, ?_, ?_, ?_⟩, by decide, by decide, by decide⟩
  · rintro (hp | hp) <;> rw [canonicalizeParsed_path, hp] <;> exact if_neg (by decide)
  · intro h
    simp [canonicalizeParsed_path, h]
  · intro h1 h2
    rw [canonicalizeParsed_path, if_pos ⟨h1, h2⟩]
    exact strTrimSuffix_append u.path "/" h2
  · intro h1 h2
    rw [canonicalizeParsed_host, if_pos h1, if_pos h2]
    exact strTrimSuffix_append (lowerStr u.host) ":80" h2
  · intro h1 h2
    rw [canonicalizeParsed_host, if_neg (by simp [h1]), if_pos h1, if_pos h2]
    exact strTrimSuffix_append (lowerStr u.host) ":443" h2
  · intro h1 h2
    rw [canonicalizeParsed_host]
    split_ifs with hs he hs2 he2
    · exact absurd he (by simp [h1 hs])
    · rfl
    · exact absurd he2 (by simp [h2 hs2])
    · rfl
    · rfl

/-- Witness for C5 at a concrete input: the default https port is dropped from
the lowercased host. -/
theorem C5_canonicalization_witness :
    (canonicalizeParsed ⟨"HTTPS", "EXAMPLE.COM:443", "/p/", "q", "frag"⟩).host ++ ":443" =
      lowerStr "EXAMPLE.COM:443" :=
  (C5_canonicalization.1 ⟨"HTTPS", "EXAMPLE.COM:443", "/p/", "q", "frag"⟩).2.2.2.2.2.2.2.1
    (by decide) (by decide)

/-- **C6** — Idempotency key precedence: in a store state where key `k` is
recorded and points at an existing target `t`, a `CreateTarget` with key `k`
for a URL whose canonical form is not yet registered returns `t` with
`is_new = false` and leaves the store unchanged. -/
theorem C6_idempotency_key_precedence
    (s : StoreState) (k newId now u2orig u2canon : String) (t : StoredTarget)
    (hkey : lookupKey s k = some t.id)
    (hfind : findById s t.id = some t)
    (hcanon : findByCanonical s u2canon = none) :
    createTarget s newId now u2orig u2canon (some k) = some (t, false, s) := by
  simp [createTarget, hcanon, hkey, hfind]

/-- Witness for C6: after `k1` was recorded for `https://a.com`, creating
`https://b.com` under `k1` returns the original target and changes nothing. -/
theorem C6_idempotency_key_precedence_witness :
    createTarget
      { targets := [⟨"t_1", "https://a.com", "https://a.com", "2024-01-01T00:00:00Z"⟩],
        idemKeys := [("k1", "t_1")] }
      "t_2" "2024-01-01T00:00:05Z" "https://b.com" "https://b.com" (some "k1") =
      some (⟨"t_1", "https://a.com", "https://a.com", "2024-01-01T00:00:00Z"⟩, false,
        { targets := [⟨"t_1", "https://a.com", "https://a.com", "2024-01-01T00:00:00Z"⟩],
          idemKeys := [("k1", "t_1")] }) :=
  C6_idempotency_key_precedence
    { targets := [⟨"t_1", "https://a.com", "https://a.com", "2024-01-01T00:00:00Z"⟩],
      idemKeys := [("k1", "t_1")] }
    "k1" "t_2" "2024-01-01T00:00:05Z" "https://b.com" "https://b.com"
    ⟨"t_1", "https://a.com", "https://a.com", "2024-01-01T00:00:00Z"⟩
    (by decide) (by decide) (by decide)

/-- **C4** — Retry policy: an all-500 server yields exactly 3 attempts and a
result with status 500 and a server-error message; a 404 yields exactly 1
attempt with no error; and in general a response below 500 observed by any
started attempt terminates the loop at once with that status and no error. -/
theorem C4_retry_policy :
    performCheck (fun _ => .response 500) none =
      (⟨some 500, some "server error: 500"⟩, 3) ∧
    performCheck (fun _ => .response 404) none = (⟨some 404, none⟩, 1) ∧
    (∀ (events : Nat → AttemptEvent) (cancelBefore : Option Nat)
       (code r attempt : Nat) (lastErr : Option String) (statusCode : Option Nat)
       (made : Nat),
       events attempt = .response code → code < 500 →
       ¬(0 < attempt ∧ cancelBefore = some attempt) →
       performCheckLoop events cancelBefore (r + 1) attempt lastErr statusCode made =
         (⟨some code, none⟩, made + 1)) := by
  refine ⟨by decide, by decide, ?_⟩
  intro events cancelBefore code r attempt lastErr statusCode made hev hlt hnc
  simp [performCheckLoop, hnc, hev, hlt]

/-- Witness for C4: a 204 observed on the second attempt ends the loop there. -/
theorem C4_retry_policy_witness :
    performCheckLoop (fun _ => .response 204) none 2 1 none none 1 =
      (⟨some 204, none⟩, 2) :=
  C4_retry_policy.2.2 (fun _ => .response 204) none 204 1 1 none none 1 rfl
    (by decide) (by decide)

/-- **C7 counterexample** — the claim says the redirect check permits a
redirect whenever 5 or fewer requests have been issued and that the client
follows 5 redirects; the installed check already rejects at `len(via) = 5`,
so a chain of 5 redirects fails the attempt. -/
theorem C7_redirect_limit_counterexample :
    checkRedirect 5 = true ∧ clientDo 5 = .error "stopped after 5 redirects" :=
  ⟨rfl, rfl⟩

/-- **C7 (amended)** — the redirect check permits a redirect exactly when at
most 4 requests have been issued; the client follows up to 4 redirects and any
chain of 5 or more fails with the redirect error. -/
theorem C7_redirect_limit_amended :
    (∀ via, checkRedirect via = false ↔ via ≤ 4) ∧
    clientDo 4 = .ok 4 ∧
    (∀ n, 5 ≤ n → clientDo n = .error "stopped after 5 redirects") := by
  refine ⟨?_, rfl, ?_⟩
  · intro via
    simp [checkRedirect]
    omega
  · intro n hn
    have key : ∀ m via, via ≤ 5 → 6 ≤ m + via →
        clientFollowRedirects m via = .error "stopped after 5 redirects" := by
      intro m
      induction m with
      | zero => intro via h1 h2; omega
      | succ k ih =>
        intro via h1 h2
        by_cases hv : 5 ≤ via
        · have hv5 : via = 5 := by omega
          simp [clientFollowRedirects, checkRedirect, hv5]
        · have hk := ih (via + 1) (by omega) (by omega)
          simp [clientFollowRedirects, checkRedirect, hv, hk]
    exact key n 1 (by omega) (by omega)

/-- Witness for C7 (amended): a chain of 7 redirects fails. -/
theorem C7_redirect_limit_witness :
    clientDo 7 = .error "stopped after 5 redirects" :=
  C7_redirect_limit_amended.2.2 7 (by decide)

/-- **C8 counterexample** — when request construction fails, the loop
`continue`s: with construction failing on every attempt, all 3 attempts are
started, refuting the claim that no further attempts are made. -/
theorem C8_construct_error_counterexample :
    (performCheck (fun _ => .constructErr "parse error") none).2 = 3 ∧ (3 : Nat) ≠ 1 :=
  ⟨rfl, by decide⟩

/-- **C8 (amended)** — request-construction failures are retried like network
errors: three attempts are started, and the returned result records the last
construction failure in `error` with `status_code` absent. -/
theorem C8_construct_error_amended (m0 m1 m2 : String) :
    performCheck
      (fun i => .constructErr (if i = 0 then m0 else if i = 1 then m1 else m2)) none =
      (⟨none, some m2⟩, 3) := by
  simp [performCheck, performCheckLoop]

/-- Witness for C8 (amended) at concrete failure messages. -/
theorem C8_construct_error_witness :
    performCheck
      (fun i => .constructErr
        (if i = 0 then "bad request" else if i = 1 then "bad request" else "bad request"))
      none = (⟨none, some "bad request"⟩, 3) :=
  C8_construct_error_amended "bad request" "bad request" "bad request"

/-- **C3 counterexample** — a probe past its gates is not abandoned without a
write when cancellation fires at a later suspension point: cancellation during
the backoff sleep (and a cancellation surfacing through the HTTP client) makes
`performCheck` return a result, which `checkTarget` hands to
`SaveCheckResult`. -/
theorem C3_cancellation_counterexample :
    checkTarget "https://example.com" false
      (fun _ => .netErr "dial tcp: connection refused") (some 1) =
      some ⟨none, some "context cancelled"⟩ ∧
    checkTarget "https://example.com" false
      (fun _ => .netErr "dial tcp: connection refused") (some 1) ≠ none ∧
    checkTarget "https://example.com" false
      (fun _ => .otherErr "context canceled") none =
      some ⟨none, some "context canceled"⟩ := by
  exact ⟨by decide, by decide, by decide⟩

/-- Helper for C3: if the cancellation signal fires during the backoff that
precedes attempt `n`, and every earlier attempt failed with a network error,
the loop returns the cancellation result. -/
theorem performCheckLoop_cancelled (events : Nat → AttemptEvent) (n : Nat) (hn : 0 < n)
    (hev : ∀ i, i < n → ∃ m, events i = .netErr m) :
    ∀ r attempt lastErr made, attempt ≤ n → n < attempt + r →
      (performCheckLoop events (some n) r attempt lastErr none made).1 =
        ⟨none, some "context cancelled"⟩ := by
  intro r
  induction r with
  | zero => intro attempt lastErr made h1 h2; omega
  | succ k ih =>
    intro attempt lastErr made h1 h2
    by_cases ha : attempt = n
    · subst ha
      simp [performCheckLoop, hn]
    · have hlt : attempt < n := by omega
      obtain ⟨m, hm⟩ := hev attempt hlt
      have hcond : ¬(0 < attempt ∧ (some n : Option Nat) = some attempt) := by
        rintro ⟨-, hc⟩
        exact ha (Option.some.inj hc).symm
      simp only [performCheckLoop, if_neg hcond, hm]
      exact ih (attempt + 1) (some m) (made + 1) (by omega) (by omega)

/-- **C3 (amended)** — cancellation observed while waiting for the per-host
gate (or before the probe starts) abandons the probe with no write; but
cancellation observed during a backoff sleep produces a `CheckResult` with
`error = "context cancelled"` that `checkTarget` does persist. -/
theorem C3_cancellation_amended :
    (∀ url events cancelBefore, checkTarget url true events cancelBefore = none) ∧
    (∀ url events n u, goParse url = some u → 0 < n → n ≤ 2 →
      (∀ i, i < n → ∃ m, events i = .netErr m) →
      checkTarget url false events (some n) =
        some ⟨none, some "context cancelled"⟩) := by
  constructor
  · intro url events cancelBefore
    unfold checkTarget
    cases goParse url <;> simp
  · intro url events n u hparse hn hle hev
    unfold checkTarget
    rw [hparse]
    simp only [if_neg Bool.false_ne_true, performCheck]
    rw [performCheckLoop_cancelled events n hn hev 3 0 none 0 (by omega) (by omega)]

/-- Witness for C3 (amended): cancellation during the backoff before the third
attempt still ends in a persisted result. -/
theorem C3_cancellation_witness :
    checkTarget "https://a.com" false (fun _ => .netErr "no route to host") (some 2) =
      some ⟨none, some "context cancelled"⟩ :=
  C3_cancellation_amended.2 "https://a.com" (fun _ => .netErr "no route to host") 2
    ⟨"https", "a.com", "", "", ""⟩ (by decide) (by decide) (by decide)
    (fun i _ => ⟨"no route to host", rfl⟩)

/-- **C1** — evaluation at the failing input: with two stored targets and
`limit = 1`, the first page returns the first target and the token
`2024-01-01T00:00:00Z_t_100`; following that token returns the first target
again, because the token splits on the underscore into three parts (the id
itself starts with `t_`), so the cursor clause is silently skipped. -/
theorem C1_pagination_eval :
    listTargets
      [⟨"t_100", "https://a.com", "https://a.com", "2024-01-01T00:00:00Z"⟩,
       ⟨"t_200", "https://b.com", "https://b.com", "2024-01-01T00:00:01Z"⟩]
      none 1 "" =
      some ⟨[⟨"t_100", "https://a.com", "https://a.com", "2024-01-01T00:00:00Z"⟩],
        "2024-01-01T00:00:00Z_t_100"⟩ ∧
    listTargets
      [⟨"t_100", "https://a.com", "https://a.com", "2024-01-01T00:00:00Z"⟩,
       ⟨"t_200", "https://b.com", "https://b.com", "2024-01-01T00:00:01Z"⟩]
      none 1 "2024-01-01T00:00:00Z_t_100" =
      some ⟨[⟨"t_100", "https://a.com", "https://a.com", "2024-01-01T00:00:00Z"⟩],
        "2024-01-01T00:00:00Z_t_100"⟩ ∧
    (strSplitOn "2024-01-01T00:00:00Z_t_100" '_').length = 3 ∧
    generateID "t_" 100 = "t_100" :=
  ⟨by decide, by decide, by decide, by decide⟩

/-- **C2** — evaluation at the failing input: `https://example.com`
canonicalizes with no trailing slash, the host-filter `LIKE` pattern
`://example.com/` therefore does not occur in it, and `ListTargets` with host
filter `example.com` returns the empty page instead of that target. -/
theorem C2_host_filter_eval :
    CanonicalizeURL "https://example.com" = some "https://example.com" ∧
    strContains "https://example.com" (likePatternForHost "example.com") = false ∧
    listTargets
      [⟨"t_1", "https://example.com", "https://example.com", "2024-01-01T00:00:00Z"⟩]
      (some "example.com") 10 "" = some ⟨[], ""⟩ :=
  ⟨by decide, by decide, by decide⟩

/-- Helper shared by C9 and C10: the first branch of `initDB` is dead code. A
9-character slice can never equal the 10-character literal, so the
`sqlite3://` prefix is never recognized and never stripped. -/
theorem goSlice9_ne (url p9 : String) (h9 : goSlice url 9 = some p9) :
    p9 ≠ "sqlite3://" := by
  intro hc
  have hle : 9 ≤ url.length := by
    by_contra hlt
    simp [goSlice, hlt] at h9
  have hp : p9 = String.mk (url.data.take 9) := by
    simp [goSlice, hle] at h9
    exact h9.symm
  have hlen : p9.length = 9 := by
    rw [hp]
    show (url.data.take 9).length = 9
    rw [List.length_take]
    have : 9 ≤ url.data.length := hle
    omega
  rw [hc] at hlen
  exact absurd hlen (by decide)

/-- **C9** — evaluation at the failing input: the `sqlite3://` comparison is
dead (a 9-byte slice never equals the 10-byte literal), so the default
`sqlite3://linkwatch.db` falls through to the catch-all branch and the full
URL — prefix not stripped — is passed to the sqlite3 driver as the DSN. -/
theorem C9_initdb_eval :
    (∀ url p9, goSlice url 9 = some p9 → p9 ≠ "sqlite3://") ∧
    initDB "" = some ("sqlite3", "sqlite3://linkwatch.db") ∧
    initDB "sqlite3://linkwatch.db" = some ("sqlite3", "sqlite3://linkwatch.db") ∧
    ("sqlite3://linkwatch.db" : String) ≠ "linkwatch.db" :=
  ⟨goSlice9_ne, by decide, by decide, by decide⟩

/-- Witness for C9: the 9-character slice of the default URL is `sqlite3:/`,
which indeed differs from `sqlite3://`. -/
theorem C9_initdb_eval_witness : ("sqlite3:/" : String) ≠ "sqlite3://" :=
  C9_initdb_eval.1 "sqlite3://linkwatch.db" "sqlite3:/" (by decide)

/-- **C10 counterexample** — `initDB` is not total on non-empty inputs: the
one-character DATABASE_URL `x` hits the out-of-range slice `databaseURL[:9]`
(modelled by `none`). -/
theorem C10_initdb_total_counterexample : initDB "x" = none := by decide

/-- **C10 (amended)** — for a non-empty DATABASE_URL, `initDB` panics with an
out-of-range slice exactly when the string is shorter than 11 characters, or
shorter than 13 without the `postgres://` prefix; it returns normally on all
other inputs. -/
theorem C10_initdb_total_amended (s : String) (hs : s ≠ "") :
    initDB s = none ↔
      s.length < 11 ∨ (s.length < 13 ∧ goSlice s 11 ≠ some "postgres://") := by
  by_cases h9 : 9 ≤ s.length
  · have e9 : goSlice s 9 = some (String.mk (s.data.take 9)) := by simp [goSlice, h9]
    have hne9 := goSlice9_ne s (String.mk (s.data.take 9)) e9
    by_cases h11 : 11 ≤ s.length
    · have e11 : goSlice s 11 = some (String.mk (s.data.take 11)) := by
        simp [goSlice, h11]
      by_cases hpg : String.mk (s.data.take 11) = "postgres://"
      · have lhs : initDB s = some ("postgres", s) := by
          simp [initDB, hs, e9, hne9, e11, hpg]
        refine iff_of_false (by simp [lhs]) ?_
        rintro (h | ⟨-, hneq⟩)
        · omega
        · exact hneq (by rw [e11, hpg])
      · by_cases h13 : 13 ≤ s.length
        · have e13 : goSlice s 13 = some (String.mk (s.data.take 13)) := by
            simp [goSlice, h13]
          have lhs : initDB s ≠ none := by
            simp only [initDB, if_neg hs, e9, e11, e13]
            rw [if_neg hne9, if_neg hpg]
            split_ifs <;> simp
          refine iff_of_false lhs ?_
          rintro (h | ⟨h, -⟩) <;> omega
        · have e13 : goSlice s 13 = none := by simp [goSlice, h13]
          have lhs : initDB s = none := by
            simp [initDB, hs, e9, hne9, e11, hpg, e13]
          refine iff_of_true lhs (Or.inr ⟨by omega, ?_⟩)
          rw [e11]
          intro hc
          exact hpg (Option.some.inj hc)
    · have e11 : goSlice s 11 = none := by simp [goSlice, h11]
      have lhs : initDB s = none := by simp [initDB, hs, e9, hne9, e11]
      exact iff_of_true lhs (Or.inl (by omega))
  · have e9 : goSlice s 9 = none := by simp [goSlice, h9]
    have lhs : initDB s = none := by simp [initDB, hs, e9]
    exact iff_of_true lhs (Or.inl (by omega))

/-- Witness for C10 (amended): `abc` is non-empty, shorter than 11, and
`initDB` indeed panics on it. -/
theorem C10_initdb_total_witness : initDB "abc" = none :=
  (C10_initdb_total_amended "abc" (by decide)).mpr (Or.inl (by decide))

end Linkwatch
